import Mathlib

/-!
Verification of the griffin health-check service configuration layer.

The definitions below are a shallow embedding of `src/config.rs` and
`src/app.rs`: the duration parser (`interval_from_str` with its anchored
regex `^(\d+)(h|min|s)$`, case-insensitive), the configuration data model
(`Interval`, `TimeUnit`, `HealthCheckConfig`, `Remote`, `Config`), the
serde-derive deserializers for those structs, and the scheduler setup in
`app::run`.
-/

namespace Griffin

/-- The enum `TimeUnit` from config.rs: hours, minutes, seconds.
(The Rust enum has exactly these three variants; there is no
milliseconds variant.) -/
inductive TimeUnit where
  | Hours
  | Minutes
  | Seconds
deriving DecidableEq, Repr

/-- The struct `Interval` from config.rs: a value (Rust `u32`) and a unit.
The `u32` is embedded as `Nat`; all values the program constructs are
bounded by `u32Max` because the parser's `parse::<u32>` enforces it. -/
structure Interval where
  value : Nat
  unit : TimeUnit
deriving DecidableEq, Repr

/-- Constructor `Interval::new` from config.rs: plain constructor, no validation. -/
def Interval.new (value : Nat) (unit : TimeUnit) : Interval :=
  { value := value, unit := unit }

/-- The impl `Default for Interval` from config.rs: 30 seconds. -/
def Interval.default : Interval :=
  { value := 30, unit := TimeUnit.Seconds }

/-- The value of `u32::MAX`. -/
def u32Max : Nat := 4294967295

/-- Lower-casing of a list of characters, as Rust `str::to_lowercase`
acts on the ASCII strings this program deals with. -/
def lowerChars (l : List Char) : List Char := l.map Char.toLower

/-- Conversion `TimeUnit::from_str` from config.rs: lower-cases the input and maps
"s" to Seconds, "min" to Minutes, "h" to Hours; anything else is an
error carrying the message of `TimeUnitError`'s `Display`. -/
def TimeUnit.fromStr (s : String) : Except String TimeUnit :=
  if lowerChars s.data = "s".data then Except.ok TimeUnit.Seconds
  else if lowerChars s.data = "min".data then Except.ok TimeUnit.Minutes
  else if lowerChars s.data = "h".data then Except.ok TimeUnit.Hours
  else Except.error ("invalid duration " ++ s)

/-- The numeric value of a list of decimal digit characters
(most significant first), as `str::parse::<u32>` computes it. -/
def natOfDigits (l : List Char) : Nat :=
  l.foldl (fun a c => 10 * a + (c.toNat - 48)) 0

/-- Rust `str::parse::<u32>` on a candidate digit string: succeeds exactly
when the string is a non-empty run of ASCII digits whose value fits in
`u32`; otherwise it is a parse error. -/
def parseU32 (s : String) : Option Nat :=
  if s.data ≠ [] ∧ s.data.all Char.isDigit ∧ natOfDigits s.data ≤ u32Max then
    some (natOfDigits s.data)
  else
    none

/-- The capture groups of the regex `^(\d+)(h|min|s)$` for one match,
mirroring `regex::Captures`: `get(1)` and `get(2)` each yield an
`Option` of the captured text. -/
structure RegexCaptures where
  g1 : Option String
  g2 : Option String
deriving DecidableEq, Repr

/-- The unit alternatives `h|min|s` of the regex, lower-cased
(the regex is built with `case_insensitive(true)`). -/
def unitAlternatives : List (List Char) := ["h".data, "min".data, "s".data]

/-- The match `RE.captures` for the anchored regex `^(\d+)(h|min|s)$` built
case-insensitively: the whole string must be a non-empty run of digits
followed by one of the three unit tokens in any letter case.  Because
the unit tokens contain no digits, the digit group is exactly the
maximal digit prefix.  Both groups always participate in a match. -/
def reCaptures (s : String) : Option RegexCaptures :=
  let digits := s.data.takeWhile Char.isDigit
  let rest := s.data.dropWhile Char.isDigit
  if digits ≠ [] ∧ lowerChars rest ∈ unitAlternatives then
    some { g1 := some (String.mk digits), g2 := some (String.mk rest) }
  else
    none

/-- The possible outcomes of running `interval_from_str`: a parsed
`Interval`, a structured deserialization error (`D::Error::custom`
with a message), or a Rust panic (from `.unwrap()`). -/
inductive ParseOutcome where
  | ok (i : Interval)
  | err (msg : String)
  | crashes
deriving DecidableEq, Repr

/-- Function `interval_from_str` from config.rs, applied to the already
deserialized string.  Mirrors the Rust control flow exactly:
match on `RE.captures`; on a match, `captures.get(1)` is parsed with
`parse::<u32>().unwrap()` (a panic when the parse fails) and an absent
group falls back to `0`; a value `≤ 0` is the custom error
"duration must be 0 or greater"; `captures.get(2)` (empty string when
absent) goes through `TimeUnit::from_str`; no regex match is the
custom error "{s} is invalid duration". -/
def interval_from_str (s : String) : ParseOutcome :=
  match reCaptures s with
  | some captures =>
    let valResult : Option Nat :=
      match captures.g1 with
      | some v => parseU32 v
      | none => some 0
    match valResult with
    | none => ParseOutcome.crashes
    | some val =>
      if val ≤ 0 then
        ParseOutcome.err "duration must be 0 or greater"
      else
        let dur := (captures.g2).getD ""
        match TimeUnit.fromStr dur with
        | Except.ok tu => ParseOutcome.ok (Interval.new val tu)
        | Except.error e => ParseOutcome.err e
  | none => ParseOutcome.err (s ++ " is invalid duration")

/-- The struct `HealthCheckConfig` from config.rs: a single field `interval`,
deserialized with `interval_from_str` and defaulting (via
`#[serde(default)]`) to `Interval::default()` when absent. -/
structure HealthCheckConfig where
  interval : Interval
deriving DecidableEq, Repr

/-- The struct `Remote` from config.rs: an optional `name`, a required `url`,
and an optional `health` section (a single `HealthCheckConfig`,
not a list). -/
structure Remote where
  name : Option String
  url : String
  health : Option HealthCheckConfig
deriving DecidableEq, Repr

/-- The struct `Config` from config.rs: the root object, a single field
`remotes` holding the list of remotes to check. -/
structure Config where
  remotes : List Remote
deriving DecidableEq, Repr

/-- The health checks a `Remote` carries: its `health` field viewed as
a list (an `Option` holds zero or one element). -/
def Remote.healthChecks (r : Remote) : List HealthCheckConfig :=
  r.health.toList

/-! ### A model of the YAML documents serde deserializes

`Config`, `Remote` and `HealthCheckConfig` derive `Deserialize`; the
definitions below embed the deserializers that `#[derive(Deserialize)]`
generates for exactly these struct declarations, over a small YAML
value type. -/

/-- A YAML value as far as this configuration schema observes it:
null, a string scalar, a sequence, or a mapping with string keys. -/
inductive Yaml where
  | null
  | str (s : String)
  | seq (items : List Yaml)
  | map (entries : List (String × Yaml))

/-- First value bound to a key in a YAML mapping. -/
def yamlLookup (k : String) : List (String × Yaml) → Option Yaml
  | [] => none
  | (k', v) :: rest => if k' = k then some v else yamlLookup k rest

/-- Outcome of a serde deserialization: a value, an error, or a panic
propagated from user code run during deserialization (here: the
`unwrap` inside `interval_from_str`). -/
inductive DeOutcome (α : Type) where
  | ok (a : α)
  | err (msg : String)
  | crashes

/-- Sequencing of deserialization steps: errors and panics propagate. -/
def DeOutcome.bind {α β : Type} : DeOutcome α → (α → DeOutcome β) → DeOutcome β
  | DeOutcome.ok a, f => f a
  | DeOutcome.err m, _ => DeOutcome.err m
  | DeOutcome.crashes, _ => DeOutcome.crashes

/-- The derived deserializer for `HealthCheckConfig`: expects a
mapping; a missing `interval` key takes `Interval::default()`
(`#[serde(default)]`), a present one must be a string scalar and goes
through `interval_from_str` (`#[serde(deserialize_with = ...)]`). -/
def HealthCheckConfig.deserialize (y : Yaml) : DeOutcome HealthCheckConfig :=
  match y with
  | Yaml.map entries =>
    match yamlLookup "interval" entries with
    | none => DeOutcome.ok { interval := Interval.default }
    | some (Yaml.str s) =>
      match interval_from_str s with
      | ParseOutcome.ok i => DeOutcome.ok { interval := i }
      | ParseOutcome.err m => DeOutcome.err m
      | ParseOutcome.crashes => DeOutcome.crashes
    | some _ => DeOutcome.err "interval: invalid type, expected a string"
  | _ => DeOutcome.err "invalid type, expected struct HealthCheckConfig"

/-- The derived deserializer for `Remote`: `name` and `health` are
`Option` fields, so a missing key or an explicit null yields `None`;
`url` is a required `String` field and its absence is a
missing-field error. -/
def Remote.deserialize (y : Yaml) : DeOutcome Remote :=
  match y with
  | Yaml.map entries =>
    let nameR : DeOutcome (Option String) :=
      match yamlLookup "name" entries with
      | none => DeOutcome.ok none
      | some Yaml.null => DeOutcome.ok none
      | some (Yaml.str s) => DeOutcome.ok (some s)
      | some _ => DeOutcome.err "name: invalid type, expected a string"
    let urlR : DeOutcome String :=
      match yamlLookup "url" entries with
      | none => DeOutcome.err "missing field url"
      | some (Yaml.str s) => DeOutcome.ok s
      | some _ => DeOutcome.err "url: invalid type, expected a string"
    let healthR : DeOutcome (Option HealthCheckConfig) :=
      match yamlLookup "health" entries with
      | none => DeOutcome.ok none
      | some Yaml.null => DeOutcome.ok none
      | some v => DeOutcome.bind (HealthCheckConfig.deserialize v)
          (fun h => DeOutcome.ok (some h))
    DeOutcome.bind nameR (fun name =>
      DeOutcome.bind urlR (fun url =>
        DeOutcome.bind healthR (fun health =>
          DeOutcome.ok { name := name, url := url, health := health })))
  | _ => DeOutcome.err "invalid type, expected struct Remote"

/-- Elementwise deserialization of a YAML sequence into a `Vec<Remote>`. -/
def deserializeRemotes : List Yaml → DeOutcome (List Remote)
  | [] => DeOutcome.ok []
  | y :: ys =>
    DeOutcome.bind (Remote.deserialize y) (fun r =>
      DeOutcome.bind (deserializeRemotes ys) (fun rs =>
        DeOutcome.ok (r :: rs)))

/-- The derived deserializer for `Config`: a mapping with the required
field `remotes`, a sequence of remotes.  `Config::new` is this
deserialization applied to the document read from the reader. -/
def Config.deserialize (y : Yaml) : DeOutcome Config :=
  match y with
  | Yaml.map entries =>
    match yamlLookup "remotes" entries with
    | none => DeOutcome.err "missing field remotes"
    | some (Yaml.seq items) =>
      DeOutcome.bind (deserializeRemotes items)
        (fun rs => DeOutcome.ok { remotes := rs })
    | some _ => DeOutcome.err "remotes: invalid type, expected a sequence"
  | _ => DeOutcome.err "invalid type, expected struct Config"

/-! ### The scheduler setup in `app::run` -/

/-- The type `clokwerk::Interval`, the scheduling period type of the external
scheduler crate, in the variants this program constructs. -/
inductive ClokwerkInterval where
  | Hours (n : Nat)
  | Minutes (n : Nat)
  | Seconds (n : Nat)
deriving DecidableEq, Repr

/-- The impl `From<Interval> for clokwerk::Interval` from config.rs: the unit
picks the variant, the value is carried through unchanged. -/
def clokwerkIntervalFrom (interval : Interval) : ClokwerkInterval :=
  match interval.unit with
  | TimeUnit.Hours => ClokwerkInterval.Hours interval.value
  | TimeUnit.Minutes => ClokwerkInterval.Minutes interval.value
  | TimeUnit.Seconds => ClokwerkInterval.Seconds interval.value

/-- The period of a `ClokwerkInterval` in milliseconds.
Modelled from the spec: the check's interval "converted to a common
time base (e.g. milliseconds)"; the clokwerk crate itself is outside
this repository. -/
def ClokwerkInterval.periodMillis : ClokwerkInterval → Nat
  | ClokwerkInterval.Hours n => n * 3600000
  | ClokwerkInterval.Minutes n => n * 60000
  | ClokwerkInterval.Seconds n => n * 1000

/-- The timers `app::run` registers on its scheduler before entering
the polling loop, from app.rs lines 40-55: the loop over
`config.remotes` has an empty body (the per-check registration is
commented out), so no timer is ever registered. -/
def registeredTimers (config : Config) : List ClokwerkInterval :=
  config.remotes.foldl (fun timers _remote => timers) []

/-- The configuration of the spec's end-to-end example, expressed in
the source's schema: one remote whose single health check has
interval "1h". -/
def exampleConfig : Config :=
  { remotes := [{ name := some "Foo"
                , url := "foo.example.com"
                , health := some { interval := Interval.new 1 TimeUnit.Hours } }] }

/-- Whether a parse outcome is a structured error (neither a parsed
`Interval` nor a panic). -/
def ParseOutcome.isErr : ParseOutcome → Bool
  | ParseOutcome.err _ => true
  | _ => false

/-- The unit tokens the regex and `TimeUnit::from_str` accept, in every
letter case, paired with the `TimeUnit` each names. -/
def unitVariants : List (String × TimeUnit) :=
  [ ("h", TimeUnit.Hours), ("H", TimeUnit.Hours)
  , ("s", TimeUnit.Seconds), ("S", TimeUnit.Seconds)
  , ("min", TimeUnit.Minutes), ("miN", TimeUnit.Minutes)
  , ("mIn", TimeUnit.Minutes), ("mIN", TimeUnit.Minutes)
  , ("Min", TimeUnit.Minutes), ("MiN", TimeUnit.Minutes)
  , ("MIn", TimeUnit.Minutes), ("MIN", TimeUnit.Minutes) ]

end Griffin

namespace Griffin

lemma takeWhile_append_eq {α : Type} (p : α → Bool) (l1 l2 : List α)
    (h1 : ∀ a ∈ l1, p a) (h2 : l2.takeWhile p = []) :
    (l1 ++ l2).takeWhile p = l1 := by
  induction l1 with
  | nil => simpa using h2
  | cons a t ih =>
    have ha : p a := h1 a (List.mem_cons_self a t)
    simp only [List.cons_append, List.takeWhile_cons_of_pos ha]
    exact congrArg (a :: ·) (ih fun b hb => h1 b (List.mem_cons_of_mem a hb))

lemma dropWhile_append_eq {α : Type} (p : α → Bool) (l1 l2 : List α)
    (h1 : ∀ a ∈ l1, p a) (h2 : l2.dropWhile p = l2) :
    (l1 ++ l2).dropWhile p = l2 := by
  induction l1 with
  | nil => simpa using h2
  | cons a t ih =>
    have ha : p a := h1 a (List.mem_cons_self a t)
    simp only [List.cons_append, List.dropWhile_cons_of_pos ha]
    exact ih fun b hb => h1 b (List.mem_cons_of_mem a hb)

/-- On a string that is a non-empty run of digits followed by a
digit-free tail in the unit alternatives, the regex matches and
captures the two parts. -/
lemma reCaptures_append (ds us : List Char)
    (hne : ds ≠ []) (hdig : ∀ c ∈ ds, c.isDigit)
    (htw : us.takeWhile Char.isDigit = []) (hdw : us.dropWhile Char.isDigit = us)
    (halt : lowerChars us ∈ unitAlternatives) :
    reCaptures (String.mk (ds ++ us)) =
      some { g1 := some (String.mk ds), g2 := some (String.mk us) } := by
  have hdata : (String.mk (ds ++ us)).data = ds ++ us := rfl
  unfold reCaptures
  rw [hdata, takeWhile_append_eq Char.isDigit ds us hdig htw,
    dropWhile_append_eq Char.isDigit ds us hdig hdw]
  rw [if_pos ⟨hne, halt⟩]

/-- A successful run of `interval_from_str` on a digit run followed by
a recognized unit token. -/
lemma interval_from_str_ok (ds us : List Char) (tu : TimeUnit)
    (hne : ds ≠ []) (hdig : ∀ c ∈ ds, c.isDigit)
    (hpos : 0 < natOfDigits ds) (hmax : natOfDigits ds ≤ u32Max)
    (htw : us.takeWhile Char.isDigit = []) (hdw : us.dropWhile Char.isDigit = us)
    (halt : lowerChars us ∈ unitAlternatives)
    (hfs : TimeUnit.fromStr (String.mk us) = Except.ok tu) :
    interval_from_str (String.mk (ds ++ us)) =
      ParseOutcome.ok (Interval.new (natOfDigits ds) tu) := by
  have hparse : parseU32 (String.mk ds) = some (natOfDigits ds) := by
    unfold parseU32
    rw [if_pos]
    refine ⟨hne, ?_, hmax⟩
    exact List.all_eq_true.mpr fun c hc => hdig c hc
  unfold interval_from_str
  rw [reCaptures_append ds us hne hdig htw hdw halt]
  simp only [hparse]
  rw [if_neg (by omega)]
  simp only [Option.getD_some, hfs]

end Griffin

open Griffin

/-- C1: the claim admits the unit token "ms", but the regex
`^(\d+)(h|min|s)$` does not: parsing "1ms" is an error, not the
claimed success. -/
theorem C1_counterexample :
    interval_from_str "1ms" = ParseOutcome.err "1ms is invalid duration" := by
  rfl

/-- C1 (amended): for every duration string consisting of a non-empty
decimal digit run of value greater than 0 and at most `u32::MAX`,
immediately followed by a unit token from {h, min, s} in any letter
case, parsing succeeds and returns the Interval with that value and
the unit the token names. -/
theorem C1_round_trip (ds : List Char) (u : String) (tu : TimeUnit)
    (hu : (u, tu) ∈ unitVariants)
    (hne : ds ≠ []) (hdig : ∀ c ∈ ds, c.isDigit)
    (hpos : 0 < natOfDigits ds) (hmax : natOfDigits ds ≤ u32Max) :
    interval_from_str (String.mk (ds ++ u.data)) =
      ParseOutcome.ok (Interval.new (natOfDigits ds) tu) := by
  have hall : ∀ p ∈ unitVariants,
      p.1.data.takeWhile Char.isDigit = [] ∧
      p.1.data.dropWhile Char.isDigit = p.1.data ∧
      lowerChars p.1.data ∈ unitAlternatives ∧
      (TimeUnit.fromStr (String.mk p.1.data)).toOption = some p.2 := by
    decide
  obtain ⟨h1, h2, h3, h4⟩ := hall (u, tu) hu
  rcases hfs : TimeUnit.fromStr (String.mk u.data) with e | tu2
  · rw [hfs] at h4
    exact absurd h4 (by simp [Except.toOption])
  · rw [hfs] at h4
    have htu : tu2 = tu := by simpa [Except.toOption] using h4
    subst htu
    exact interval_from_str_ok ds u.data tu2 hne hdig hpos hmax h1 h2 h3 hfs

/-- C1 witness: "5min" parses to five minutes. -/
theorem C1_round_trip_witness :
    interval_from_str (String.mk (['5'] ++ "min".data)) =
      ParseOutcome.ok (Interval.new 5 TimeUnit.Minutes) :=
  C1_round_trip ['5'] "min" TimeUnit.Minutes (by decide) (by decide)
    (fun c hc => by fin_cases hc; decide) (by decide) (by decide)

/-- C2: the claim says startup registers one recurring timer per health
check (one timer for the example config with a "1h" check); but the
registration loop in `app::run` is commented out, so the scheduler
registers no timer at all.  The Interval-to-clokwerk conversion the
registration would use does map the "1h" interval to a one-hour
(3600000 ms) period. -/
theorem C2_no_timer_registered :
    registeredTimers exampleConfig = [] ∧
      ClokwerkInterval.periodMillis
        (clokwerkIntervalFrom (Interval.new 1 TimeUnit.Hours)) = 3600000 := by
  exact ⟨rfl, rfl⟩

/-- C4: a health check section with no `interval` key resolves to the
default interval of exactly 30 seconds. -/
theorem C4_default_interval (entries : List (String × Yaml))
    (h : yamlLookup "interval" entries = none) :
    HealthCheckConfig.deserialize (Yaml.map entries) =
      DeOutcome.ok { interval := Interval.new 30 TimeUnit.Seconds } := by
  simp only [HealthCheckConfig.deserialize]
  rw [h]
  rfl

/-- C4 witness: the empty health-check mapping resolves to 30 seconds. -/
theorem C4_default_interval_witness :
    HealthCheckConfig.deserialize (Yaml.map []) =
      DeOutcome.ok { interval := Interval.new 30 TimeUnit.Seconds } :=
  C4_default_interval [] rfl

/-- C6: the claim says a backend holds an ordered list of health
checks, possibly several; but `Remote.health` is an `Option`, so no
remote can carry two or more health checks. -/
theorem C6_counterexample :
    ¬ ∃ r : Remote, 2 ≤ r.healthChecks.length := by
  rintro ⟨r, h⟩
  rcases r with ⟨n, u, _ | hc⟩
  all_goals simp [Remote.healthChecks] at h

/-- C6 (amended): a backend holds at most one optional health check:
every remote has exactly zero or one health checks, never more. -/
theorem C6_at_most_one_check (r : Remote) :
    r.healthChecks.length = 0 ∨ r.healthChecks.length = 1 := by
  rcases r with ⟨n, u, _ | hc⟩
  · exact Or.inl rfl
  · exact Or.inr rfl

/-- C7: deserializing a configuration whose remotes list is empty
succeeds with a configuration containing no remotes (hence nothing to
schedule), rather than erroring. -/
theorem C7_empty_backends_ok :
    Config.deserialize (Yaml.map [("remotes", Yaml.seq [])]) =
      DeOutcome.ok { remotes := [] } := by
  rfl

/-- C8: a well-formed duration string whose magnitude exceeds
`u32::MAX`, such as "5000000000s", makes the parser panic on the
unwrapped `parse::<u32>` instead of returning a structured error. -/
theorem C8_overflow_crashes :
    interval_from_str "5000000000s" = ParseOutcome.crashes ∧
      u32Max < natOfDigits "5000000000".data := by
  exact ⟨by decide, by decide⟩

/-- C9: a remote entry that omits `name` and/or the whole `health`
section deserializes successfully with `None` for the omitted fields,
and `url` is the only required field (omitting it is an error). -/
theorem C9_optional_fields :
    (∀ u : String, Remote.deserialize (Yaml.map [("url", Yaml.str u)]) =
        DeOutcome.ok { name := none, url := u, health := none }) ∧
    (∀ u : String,
        Remote.deserialize
            (Yaml.map [("url", Yaml.str u), ("health", Yaml.map [])]) =
          DeOutcome.ok { name := none, url := u
                       , health := some { interval := Interval.default } }) ∧
    (∀ u n : String,
        Remote.deserialize
            (Yaml.map [("name", Yaml.str n), ("url", Yaml.str u)]) =
          DeOutcome.ok { name := some n, url := u, health := none }) ∧
    Remote.deserialize (Yaml.map []) = DeOutcome.err "missing field url" := by
  exact ⟨fun u => rfl, fun u => rfl, fun u n => rfl, rfl⟩

namespace Griffin

/-- Inversion of a successful regex match: both groups are present,
group 1 is a non-empty run of digits and group 2 lower-cases to one of
the unit alternatives. -/
lemma reCaptures_some_inv {s : String} {caps : RegexCaptures}
    (h : reCaptures s = some caps) :
    ∃ ds us : List Char,
      caps = { g1 := some (String.mk ds), g2 := some (String.mk us) } ∧
      ds ≠ [] ∧ (∀ c ∈ ds, c.isDigit) ∧ lowerChars us ∈ unitAlternatives := by
  unfold reCaptures at h
  simp only [] at h
  split at h
  case isTrue hcond =>
    obtain ⟨h1, h2⟩ := hcond
    refine ⟨s.data.takeWhile Char.isDigit, s.data.dropWhile Char.isDigit,
      (Option.some.inj h).symm, h1, ?_, h2⟩
    exact fun c hc => List.mem_takeWhile_imp hc
  case isFalse => exact absurd h (by simp)

/-- A group-2 capture lower-casing to a unit alternative is accepted
by `TimeUnit::from_str`. -/
lemma fromStr_of_alt {us : List Char} (h : lowerChars us ∈ unitAlternatives) :
    ∃ tu : TimeUnit, TimeUnit.fromStr (String.mk us) = Except.ok tu := by
  have hd : (String.mk us).data = us := rfl
  unfold TimeUnit.fromStr
  rw [hd]
  simp only [unitAlternatives, List.mem_cons, List.not_mem_nil, or_false] at h
  rcases h with h | h | h <;> rw [h]
  · exact ⟨TimeUnit.Hours, by rfl⟩
  · exact ⟨TimeUnit.Minutes, by rfl⟩
  · exact ⟨TimeUnit.Seconds, by rfl⟩

/-- The no-match error message can never be the zero-magnitude error
message. -/
lemma invalid_msg_ne_zero_msg (s : String) :
    s ++ " is invalid duration" ≠ "duration must be 0 or greater" := by
  intro h
  have h2 := congrArg String.data h
  rw [String.data_append] at h2
  have h3 := congrArg List.getLast? h2
  rw [List.getLast?_append_of_ne_nil _ (by decide)] at h3
  exact absurd h3 (by decide)

end Griffin

namespace Griffin

/-- Unfolding of the parser once the regex has matched with a present
group 1. -/
lemma interval_from_str_of_captures {s v : String} {g2 : Option String}
    (h : reCaptures s = some { g1 := some v, g2 := g2 }) :
    interval_from_str s =
      match parseU32 v with
      | none => ParseOutcome.crashes
      | some val =>
        if val ≤ 0 then ParseOutcome.err "duration must be 0 or greater"
        else
          match TimeUnit.fromStr (g2.getD "") with
          | Except.ok tu => ParseOutcome.ok (Interval.new val tu)
          | Except.error e => ParseOutcome.err e := by
  unfold interval_from_str
  rw [h]

end Griffin

namespace Griffin

/-- The parser panics when group 1 fails to parse as `u32`. -/
lemma interval_from_str_crashes_of {s v : String} {g2 : Option String}
    (h : reCaptures s = some { g1 := some v, g2 := g2 })
    (hp : parseU32 v = none) :
    interval_from_str s = ParseOutcome.crashes := by
  rw [interval_from_str_of_captures h, hp]

/-- The parser reports the zero-magnitude error when group 1 parses
to 0. -/
lemma interval_from_str_zero_of {s v : String} {g2 : Option String}
    (h : reCaptures s = some { g1 := some v, g2 := g2 })
    (hp : parseU32 v = some 0) :
    interval_from_str s = ParseOutcome.err "duration must be 0 or greater" := by
  rw [interval_from_str_of_captures h, hp]
  rfl

/-- The parser succeeds when group 1 parses to a positive value and
group 2 names a unit. -/
lemma interval_from_str_pos_of {s v : String} {g2 : Option String}
    {val : Nat} {tu : TimeUnit}
    (h : reCaptures s = some { g1 := some v, g2 := g2 })
    (hp : parseU32 v = some val) (hv : 0 < val)
    (htu : TimeUnit.fromStr (g2.getD "") = Except.ok tu) :
    interval_from_str s = ParseOutcome.ok (Interval.new val tu) := by
  rw [interval_from_str_of_captures h, hp]
  show (if val ≤ 0 then ParseOutcome.err "duration must be 0 or greater"
    else
      match TimeUnit.fromStr (g2.getD "") with
      | Except.ok tu => ParseOutcome.ok (Interval.new val tu)
      | Except.error e => ParseOutcome.err e) =
    ParseOutcome.ok (Interval.new val tu)
  rw [if_neg (by omega), htu]

end Griffin

open Griffin in
/-- C3: parsing returns a structured error whenever the regex rejects
the string or the captured digits have value zero. -/
theorem C3_invalid_inputs_error (s : String)
    (h : reCaptures s = none ∨
      ∃ (caps : RegexCaptures) (v : String),
        reCaptures s = some caps ∧ caps.g1 = some v ∧ natOfDigits v.data = 0) :
    (Griffin.interval_from_str s).isErr = true := by
  rcases h with h | ⟨caps, v, h1, h2, h3⟩
  · unfold interval_from_str
    rw [h]
    rfl
  · obtain ⟨ds, us, hcaps, hne, hdig, halt⟩ := reCaptures_some_inv h1
    subst hcaps
    have hv : v = String.mk ds := (Option.some.inj h2).symm
    subst hv
    have hp : parseU32 (String.mk ds) = some 0 := by
      show (if ds ≠ [] ∧ ds.all Char.isDigit ∧ natOfDigits ds ≤ u32Max then
        some (natOfDigits ds) else none) = some 0
      have h3' : natOfDigits ds = 0 := h3
      rw [if_pos ⟨hne, List.all_eq_true.mpr hdig, by omega⟩, h3']
    rw [interval_from_str_zero_of h1 hp]
    rfl

/-- C3 witness: "0h" is rejected with an error. -/
theorem C3_invalid_inputs_error_witness :
    (Griffin.interval_from_str "0h").isErr = true :=
  C3_invalid_inputs_error "0h"
    (Or.inr ⟨{ g1 := some "0", g2 := some "h" }, "0", by decide, rfl, by decide⟩)

open Griffin in
/-- C5: every Interval the parser returns has value > 0; the plain
constructor `Interval::new` does not enforce the invariant. -/
theorem C5_parse_invariant :
    (∀ (s : String) (i : Interval),
        Griffin.interval_from_str s = ParseOutcome.ok i → 0 < i.value) ∧
    (Interval.new 0 TimeUnit.Seconds).value = 0 := by
  constructor
  · intro s i h
    rcases hre : reCaptures s with _ | caps
    · unfold interval_from_str at h
      rw [hre] at h
      exact ParseOutcome.noConfusion h
    · obtain ⟨ds, us, hcaps, hne, hdig, halt⟩ := reCaptures_some_inv hre
      subst hcaps
      rcases hp : parseU32 (String.mk ds) with _ | val
      · rw [interval_from_str_crashes_of hre hp] at h
        exact ParseOutcome.noConfusion h
      · by_cases hv0 : val = 0
        · subst hv0
          rw [interval_from_str_zero_of hre hp] at h
          exact ParseOutcome.noConfusion h
        · obtain ⟨tu, htu⟩ := fromStr_of_alt halt
          have htu' : TimeUnit.fromStr ((some (String.mk us)).getD "") =
              Except.ok tu := htu
          rw [interval_from_str_pos_of hre hp (Nat.pos_of_ne_zero hv0) htu'] at h
          have hi : Interval.new val tu = i := ParseOutcome.ok.inj h
          subst hi
          exact Nat.pos_of_ne_zero hv0
  · rfl

/-- C5 witness: "5min" yields a positive interval; `Interval::new`
accepts value 0. -/
theorem C5_parse_invariant_witness :
    0 < (Interval.new 5 TimeUnit.Minutes).value ∧
      (Interval.new 0 TimeUnit.Seconds).value = 0 :=
  ⟨C5_parse_invariant.1 "5min" (Interval.new 5 TimeUnit.Minutes) (by decide),
    C5_parse_invariant.2⟩

open Griffin in
/-- C10: whenever the regex matches, capture group 1 is present; and
the zero-magnitude error is returned exactly when the captured digit
string parses to 0. -/
theorem C10_group1_always_present :
    (∀ (s : String) (caps : RegexCaptures),
        reCaptures s = some caps → caps.g1 ≠ none) ∧
    (∀ s : String,
        Griffin.interval_from_str s =
            ParseOutcome.err "duration must be 0 or greater" ↔
          ∃ (caps : RegexCaptures) (v : String),
            reCaptures s = some caps ∧ caps.g1 = some v ∧
              parseU32 v = some 0) := by
  constructor
  · intro s caps h
    obtain ⟨ds, us, hcaps, -, -, -⟩ := reCaptures_some_inv h
    subst hcaps
    simp
  · intro s
    constructor
    · intro h
      rcases hre : reCaptures s with _ | caps
      · unfold interval_from_str at h
        rw [hre] at h
        exact absurd (ParseOutcome.err.inj h) (invalid_msg_ne_zero_msg s)
      · obtain ⟨ds, us, hcaps, hne, hdig, halt⟩ := reCaptures_some_inv hre
        subst hcaps
        rcases hp : parseU32 (String.mk ds) with _ | val
        · rw [interval_from_str_crashes_of hre hp] at h
          exact ParseOutcome.noConfusion h
        · by_cases hv0 : val = 0
          · subst hv0
            exact ⟨_, String.mk ds, rfl, rfl, hp⟩
          · obtain ⟨tu, htu⟩ := fromStr_of_alt halt
            have htu' : TimeUnit.fromStr ((some (String.mk us)).getD "") =
                Except.ok tu := htu
            rw [interval_from_str_pos_of hre hp
              (Nat.pos_of_ne_zero hv0) htu'] at h
            exact ParseOutcome.noConfusion h
    · rintro ⟨caps, v, h1, h2, h3⟩
      obtain ⟨ds, us, hcaps, -, -, -⟩ := reCaptures_some_inv h1
      subst hcaps
      have hv : v = String.mk ds := (Option.some.inj h2).symm
      subst hv
      exact interval_from_str_zero_of h1 h3

/-- C10 witness: "0min" produces exactly the zero-magnitude error. -/
theorem C10_group1_always_present_witness :
    Griffin.interval_from_str "0min" =
      ParseOutcome.err "duration must be 0 or greater" :=
  (C10_group1_always_present.2 "0min").mpr
    ⟨{ g1 := some "0", g2 := some "min" }, "0", by decide, rfl, by decide⟩
